import Mathlib

/-!
Verification of the diff computation and view-materialization engine of
`src/app.py` (the "Ultimate Diff Tool").  The Python source is embedded
shallowly: every core function (`preprocess_lines`,
`generate_ultimate_diff_views`, `generate_patch_file`) is translated into an
executable Lean definition, with `difflib.SequenceMatcher` modelled by a
faithful functional reimplementation of its documented no-junk behaviour.
Pygments rendering (`highlight_syntax`) is treated as an opaque parameter
`render : String → String`, and compiled regular expressions are modelled as
abstract match predicates, since the engine only ever calls them.
-/

namespace StreamDiff

/-- Python `needle in hay` (substring containment) on the character list of a
string: `leadsWith p s` holds when `p` is an initial segment of `s`. -/
def leadsWith : List Char → List Char → Bool
  | [], _ => true
  | _ :: _, [] => false
  | c :: cs, d :: ds => c == d && leadsWith cs ds

/-- `occursIn p s`: some suffix of `s` starts with `p`. -/
def occursIn (pat : List Char) : List Char → Bool
  | [] => leadsWith pat []
  | c :: tl => leadsWith pat (c :: tl) || occursIn pat tl

/-- Python `needle in hay` on strings, as used by the diff-view post-pass
(`'placeholder' not in line[2] or 'sep' in line[2]`, app.py line 602). -/
def pyIn (needle hay : String) : Bool := occursIn needle.data hay.data

/-- The ASCII whitespace characters Python's `str.strip()` removes. -/
def isWsChar (ch : Char) : Bool :=
  ch == ' ' || ch == '\t' || ch == '\n' || ch == '\r'
    || ch == '\x0b' || ch == '\x0c'

/-- Drop leading whitespace from a character list. -/
def dropWs : List Char → List Char
  | [] => []
  | ch :: tl => if isWsChar ch then dropWs tl else ch :: tl

/-- Python `line.lstrip()` / the `^\s*` regex head. -/
def pyLStrip (s : String) : String := String.mk (dropWs s.data)

/-- Python `line.strip()`. -/
def pyStrip (s : String) : String :=
  String.mk ((dropWs (dropWs s.data).reverse).reverse)

/-- Lowercase an ASCII character (Python `str.lower()` on the inputs the
engine handles). -/
def lowerChar (ch : Char) : Char :=
  if 'A' ≤ ch && ch ≤ 'Z' then Char.ofNat (ch.toNat + 32) else ch

/-- Python `line.lower()`. -/
def pyLower (s : String) : String := String.mk (s.data.map lowerChar)

/-- Python `s.startswith(pre)`. -/
def pyStartsWith (s pre : String) : Bool := leadsWith pre.data s.data

/-- Python `s.endswith(suf)`. -/
def pyEndsWith (s suf : String) : Bool :=
  leadsWith suf.data.reverse s.data.reverse

/-- One entry of `options['ignore_regex']` after `splitlines`/`strip`
(app.py line 296).  A regular expression is opaque to the engine: all the
code does is compile it (which may fail, `ok = false`) and call
`pattern.search(line)` (the `search` field). -/
structure Pat where
  ok : Bool
  search : String → Bool

/-- The options dictionary consumed by `preprocess_lines` and
`generate_ultimate_diff_views` (app.py lines 32–36). -/
structure Options where
  ignore_whitespace : Bool
  ignore_case : Bool
  ignore_blank_lines : Bool
  hide_unchanged : Bool
  num_context : Nat
  ignore_comments : Bool
  ignore_regex : List Pat

/-- `default_options` of app.py lines 32–36 (the `theme` key is UI-only and
not part of the engine's input). An empty `ignore_regex` string yields no
patterns. -/
def default_options : Options :=
  { ignore_whitespace := true
    ignore_case := false
    ignore_blank_lines := false
    hide_unchanged := false
    num_context := 3
    ignore_comments := false
    ignore_regex := [] }

/-- app.py lines 293–298: `patterns = [re.compile(p.strip()) for p in ...]`
inside a single `try`.  If any entry fails to compile, `re.error` aborts the
whole comprehension before assignment, so `patterns` keeps its initial value
`[]` and a warning is shown (second component `true`). -/
def compilePatterns (pats : List Pat) : List (String → Bool) × Bool :=
  if pats.any (fun p => !p.ok) then ([], true)
  else (pats.map (fun p => p.search), false)

/-- app.py lines 300–308: the three comment regexes
`^\s*#.*`, `^\s*//.*`, `^\s*/\*.*\*/\s*$` applied with `re.match`. -/
def isCommentLine (line : String) : Bool :=
  let t := pyLStrip line
  pyStartsWith t "#" || pyStartsWith t "//" ||
    (let u := pyStrip line
     pyStartsWith u "/*" && pyEndsWith u "*/" && 4 ≤ u.data.length)

/-- Recursive worker for `preprocess_lines` (the `for i, line in
enumerate(lines)` loop of app.py lines 310–341), carrying the current
original index. -/
def preprocessAux (o : Options) (patterns : List (String → Bool)) :
    Nat → List String → List String × List Nat
  | _, [] => ([], [])
  | i, line :: rest =>
    let (ps, idxs) := preprocessAux o patterns (i + 1) rest
    if patterns.any (fun p => p line) then (ps, idxs)
    else if o.ignore_comments && isCommentLine line then (ps, idxs)
    else if o.ignore_blank_lines && pyStrip line == "" then (ps, idxs)
    else
      let pl := line
      let pl := if o.ignore_whitespace then pyStrip pl else pl
      let pl := if o.ignore_case then pyLower pl else pl
      (pl :: ps, i :: idxs)

/-- app.py lines 289–343, `preprocess_lines(lines, options)`: returns the
processed (comparison) sequence and the original indices of its lines. -/
def preprocess_lines (lines : List String) (options : Options) :
    List String × List Nat :=
  preprocessAux options (compilePatterns options.ignore_regex).1 0 lines

/-! ## Model of `difflib.SequenceMatcher`

`generate_ultimate_diff_views` calls
`difflib.SequenceMatcher(None, a, b, autojunk=False).get_opcodes()`, and
`generate_patch_file` calls `difflib.unified_diff` which uses the default
`autojunk=True`.  The matcher is modelled functionally.  `junk` is the
`bjunk ∪ bpopular` set of difflib's `__chain_b` (for `autojunk=False` and no
`isjunk` argument it is empty). -/

/-- Length of the longest run `a[i+t] = b[j+t]` (`t < fuel`) staying inside
`ahi`/`bhi` whose `b`-elements are not junk: the diagonal runs that difflib's
`find_longest_match` discovers through `b2j` (junk elements are purged from
`b2j`, so no run crosses them). -/
def matchLenAux (a b : List String) (junk : String → Bool) (ahi bhi : Nat) :
    Nat → Nat → Nat → Nat
  | 0, _, _ => 0
  | fuel + 1, i, j =>
    if i < ahi && j < bhi && a.getD i "" == b.getD j ""
        && !junk (b.getD j "") then
      matchLenAux a b junk ahi bhi fuel (i + 1) (j + 1) + 1
    else 0

def matchLen (a b : List String) (junk : String → Bool)
    (ahi bhi i j : Nat) : Nat :=
  matchLenAux a b junk ahi bhi (ahi - i) i j

/-- The core search of `find_longest_match`: among all junk-free matching
blocks inside `[alo, ahi) × [blo, bhi)`, the longest one, ties resolved in
favour of the block starting earliest in `a` and then earliest in `b`
(exactly difflib's documented contract; its `j2len` dynamic program scans
ending positions in the same lexicographic order and updates only on strict
improvement). -/
def bruteBest (a b : List String) (junk : String → Bool)
    (alo ahi blo bhi : Nat) : Nat × Nat × Nat :=
  (List.range' alo (ahi - alo)).foldl
    (fun best i =>
      (List.range' blo (bhi - blo)).foldl
        (fun best j =>
          let k := matchLen a b junk ahi bhi i j
          if best.2.2 < k then (i, j, k) else best)
        best)
    (alo, blo, 0)

/-- The backward extension `while` loops of `find_longest_match`: extend the
block by preceding equal elements whose `b` side has junk status
`wantJunk`. -/
def extBack (a b : List String) (junk : String → Bool) (wantJunk : Bool)
    (alo blo : Nat) : Nat → Nat × Nat × Nat → Nat × Nat × Nat
  | 0, best => best
  | fuel + 1, (i, j, k) =>
    if alo < i && blo < j && junk (b.getD (j - 1) "") == wantJunk
        && a.getD (i - 1) "" == b.getD (j - 1) "" then
      extBack a b junk wantJunk alo blo fuel (i - 1, j - 1, k + 1)
    else (i, j, k)

/-- The forward extension `while` loops of `find_longest_match`. -/
def extFwd (a b : List String) (junk : String → Bool) (wantJunk : Bool)
    (ahi bhi : Nat) : Nat → Nat × Nat × Nat → Nat × Nat × Nat
  | 0, best => best
  | fuel + 1, (i, j, k) =>
    if i + k < ahi && j + k < bhi && junk (b.getD (j + k) "") == wantJunk
        && a.getD (i + k) "" == b.getD (j + k) "" then
      extFwd a b junk wantJunk ahi bhi fuel (i, j, k + 1)
    else (i, j, k)

/-- `SequenceMatcher.find_longest_match(alo, ahi, blo, bhi)`: best junk-free
block, then the four extension loops (non-junk backward/forward, junk
backward/forward). -/
def findLongestMatch (a b : List String) (junk : String → Bool)
    (alo ahi blo bhi : Nat) : Nat × Nat × Nat :=
  let s0 := bruteBest a b junk alo ahi blo bhi
  let s1 := extBack a b junk false alo blo ahi s0
  let s2 := extFwd a b junk false ahi bhi ahi s1
  let s3 := extBack a b junk true alo blo ahi s2
  let s4 := extFwd a b junk true ahi bhi ahi s3
  s4

/-- `SequenceMatcher.get_matching_blocks` recursion (its queue plus final
sort, rendered as left-to-right recursion, which yields the same sorted
list).  `fuel` dominates the measure `(ahi - alo) + (bhi - blo)`. -/
def mBlocks (a b : List String) (junk : String → Bool) :
    Nat → Nat → Nat → Nat → Nat → List (Nat × Nat × Nat)
  | 0, _, _, _, _ => []
  | fuel + 1, alo, ahi, blo, bhi =>
    let r := findLongestMatch a b junk alo ahi blo bhi
    let i := r.1
    let j := r.2.1
    let k := r.2.2
    if k == 0 then []
    else
      (if alo < i && blo < j then mBlocks a b junk fuel alo i blo j else [])
        ++ (i, j, k)
          :: (if i + k < ahi && j + k < bhi then
                mBlocks a b junk fuel (i + k) ahi (j + k) bhi
              else [])

/-- The adjacent-block merge loop at the end of `get_matching_blocks`,
started with `i1 = j1 = k1 = 0`. -/
def mergeBlocksAux : Nat × Nat × Nat → List (Nat × Nat × Nat) →
    List (Nat × Nat × Nat)
  | (i1, j1, k1), [] => if k1 == 0 then [] else [(i1, j1, k1)]
  | (i1, j1, k1), (i2, j2, k2) :: rest =>
    if i1 + k1 == i2 && j1 + k1 == j2 then
      mergeBlocksAux (i1, j1, k1 + k2) rest
    else
      (if k1 == 0 then [] else [(i1, j1, k1)]) ++ mergeBlocksAux (i2, j2, k2) rest

/-- `SequenceMatcher.get_matching_blocks`: recursive block collection, merge
of adjacent blocks, then the terminal sentinel `(la, lb, 0)`. -/
def getMatchingBlocks (a b : List String) (junk : String → Bool) :
    List (Nat × Nat × Nat) :=
  let la := a.length
  let lb := b.length
  mergeBlocksAux (0, 0, 0) (mBlocks a b junk (la + lb + 1) 0 la 0 lb)
    ++ [(la, lb, 0)]

/-- The four opcode tags of `SequenceMatcher.get_opcodes`. -/
inductive OTag where
  | equal
  | delete
  | insert
  | replace
deriving DecidableEq, Repr

/-- One opcode `(tag, i1, i2, j1, j2)`. -/
structure Op where
  tag : OTag
  i1 : Nat
  i2 : Nat
  j1 : Nat
  j2 : Nat
deriving DecidableEq, Repr

/-- The opcode-building loop of `get_opcodes`: walk the matching blocks,
emitting a gap opcode (`replace`/`delete`/`insert`) before each block and an
`equal` opcode for the block itself when its size is nonzero. -/
def opcodesFromBlocks : Nat → Nat → List (Nat × Nat × Nat) → List Op
  | _, _, [] => []
  | i, j, (ai, bj, size) :: rest =>
    (if i < ai && j < bj then [⟨OTag.replace, i, ai, j, bj⟩]
     else if i < ai then [⟨OTag.delete, i, ai, j, bj⟩]
     else if j < bj then [⟨OTag.insert, i, ai, j, bj⟩]
     else [])
      ++ (if size == 0 then [] else [⟨OTag.equal, ai, ai + size, bj, bj + size⟩])
      ++ opcodesFromBlocks (ai + size) (bj + size) rest

/-- `SequenceMatcher(None, a, b).get_opcodes()` with junk set `junk`. -/
def getOpcodes (a b : List String) (junk : String → Bool) : List Op :=
  opcodesFromBlocks 0 0 (getMatchingBlocks a b junk)

/-- The empty junk set: `autojunk=False` and no `isjunk`, as passed by
`generate_ultimate_diff_views` (app.py line 404). -/
def noJunk : String → Bool := fun _ => false

/-! ## The view materializer (`generate_ultimate_diff_views`) -/

/-- One emitted row `(line_num, content_html, line_class)`
(app.py line 407). -/
abbrev Row := Option Nat × String × String

/-- app.py lines 418–419: whitespace-only content is replaced by a single
non-breaking space (the source's literal is U+00A0). -/
def format_html_line_tuple (line_num : Option Nat) (content_html : String)
    (line_class : String) : Row :=
  (line_num, if pyStrip content_html == "" then " " else content_html,
   line_class)

/-- app.py line 422. -/
def separator_tuple : Row :=
  (none, "<div class=\"diff-sep\">... unchanged lines hidden ...</div>",
   "diff-sep")

/-- A placeholder row: `format_html_line_tuple(None, '', 'diff-placeholder')`
with `placeholder_content = ''` (app.py line 421). -/
def placeholder_row : Row := format_html_line_tuple none "" "diff-placeholder"

/-- The `diff_stats` dictionary (app.py line 411). -/
structure Stats where
  added : Nat
  deleted : Nat
  modified : Nat
  unchanged : Nat
deriving DecidableEq, Repr

/-- The mutable state threaded through the opcode loop of
`generate_ultimate_diff_views`: the three view row lists, the minimap list,
the stats, and `last_proc_a_idx` / `last_proc_b_idx`. -/
structure DState where
  viewA : List Row
  viewB : List Row
  viewDiff : List Row
  minimap : List String
  stats : Stats
  lastA : Nat
  lastB : Nat
deriving DecidableEq, Repr

/-- Initial loop state (app.py lines 407–416). -/
def initState : DState := ⟨[], [], [], [], ⟨0, 0, 0, 0⟩, 0, 0⟩

/-- The fixed per-comparison data of the opcode loop: the two original line
sequences, the two `orig_indices` maps (position `k` of the processed
sequence maps to original index `mapA[k]`, i.e. `map_proc_to_orig_a` of
app.py line 413), the options, and the opaque
`highlight_syntax(·, lexer)` renderer. -/
structure Ctx where
  linesA : List String
  linesB : List String
  mapA : List Nat
  mapB : List Nat
  opts : Options
  render : String → String

/-- app.py lines 489–519: the separate trailing-context backfill branch run
before a non-`equal` opcode when `hide_unchanged` is set and
`i1_proc > last_proc_a_idx`.  Returns the rows it appends to view A, view B,
the diff view, and the minimap. -/
def backfillEmit (c : Ctx) (st : DState) (op : Op) :
    List Row × List Row × List Row × List String :=
  let opts := c.opts
  if opts.hide_unchanged && op.tag != OTag.equal && st.lastA < op.i1 then
    let prev_equal_proc_len := op.i1 - st.lastA
    if opts.num_context < prev_equal_proc_len then
      let context_start_proc_a := op.i1 - opts.num_context
      let context_start_proc_b := op.j1 - opts.num_context
      match c.mapA.get? context_start_proc_a,
          c.mapB.get? context_start_proc_b with
      | some _, some _ =>
        let sepRows : List Row :=
          if st.viewA == []
              || (st.viewA.getLast?.map (fun r => r.2.2)) != some "diff-sep" then
            [separator_tuple]
          else []
        let ctxPairs := (List.range opts.num_context).filterMap (fun k =>
          match c.mapA.get? (context_start_proc_a + k),
              c.mapB.get? (context_start_proc_b + k) with
          | some ca, some cb =>
            some (format_html_line_tuple (some (ca + 1))
                    (c.render (c.linesA.getD ca "")) "diff-context",
                  format_html_line_tuple (some (cb + 1))
                    (c.render (c.linesB.getD cb "")) "diff-context")
          | _, _ => none)
        (sepRows ++ ctxPairs.map (fun p => p.1),
         sepRows ++ ctxPairs.map (fun p => p.2),
         sepRows ++ ctxPairs.map (fun _ => placeholder_row),
         ctxPairs.map (fun _ => "equal"))
      | _, _ => ([], [], [], [])
    else ([], [], [], [])
  else ([], [], [], [])

/-- `i1_orig` of app.py line 427: original index of the opcode's first
A-side processed position. -/
def i1origA (c : Ctx) (op : Op) : Option Nat := c.mapA.get? op.i1

/-- `i2_orig` of app.py lines 428–429: one past the original index of the
opcode's last A-side processed position, falling back to `i1_orig`. -/
def i2origA (c : Ctx) (op : Op) : Option Nat :=
  match c.mapA.get? (op.i2 - 1) with
  | some v => some (v + 1)
  | none => i1origA c op

/-- `j1_orig` of app.py line 431. -/
def j1origB (c : Ctx) (op : Op) : Option Nat := c.mapB.get? op.j1

/-- `j2_orig` of app.py lines 432–433. -/
def j2origB (c : Ctx) (op : Op) : Option Nat :=
  match c.mapB.get? (op.j2 - 1) with
  | some v => some (v + 1)
  | none => j1origB c op

/-- `lines_in_block_a_orig` of app.py line 435: the original-line slice the
opcode re-hydrates to on the A side. -/
def origBlockA (c : Ctx) (op : Op) : List String :=
  match i1origA c op, i2origA c op with
  | some x, some y => (c.linesA.drop x).take (y - x)
  | _, _ => []

/-- `lines_in_block_b_orig` of app.py line 436. -/
def origBlockB (c : Ctx) (op : Op) : List String :=
  match j1origB c op, j2origB c op with
  | some x, some y => (c.linesB.drop x).take (y - x)
  | _, _ => []

/-- An A-side row with block index `k` and CSS class `cls`, as built all
over the opcode loop: line number `i1_orig + k + 1`, content rendered from
`lines_in_block_a_orig[k]`. -/
def blockRowA (c : Ctx) (op : Op) (cls : String) (k : Nat) : Row :=
  format_html_line_tuple (some ((i1origA c op).getD 0 + k + 1))
    (c.render ((origBlockA c op).getD k "")) cls

/-- The B-side analogue of `blockRowA`. -/
def blockRowB (c : Ctx) (op : Op) (cls : String) (k : Nat) : Row :=
  format_html_line_tuple (some ((j1origB c op).getD 0 + k + 1))
    (c.render ((origBlockB c op).getD k "")) cls

/-- `tuple_a` of the replace branch (app.py lines 567–578): the
`replaced_old` row at offset `k`, guarded on `k < n_lines_a` and on the
index-map hit. -/
def replaceTupleA (c : Ctx) (op : Op) (k : Nat) : Row :=
  format_html_line_tuple
    (if k < op.i2 - op.i1 && (i1origA c op).isSome
     then some ((i1origA c op).getD 0 + k + 1) else none)
    (c.render (if k < op.i2 - op.i1 then (origBlockA c op).getD k "" else ""))
    "diff-sub"

/-- `tuple_b` of the replace branch (app.py lines 568–585): the
`replaced_new` row at offset `k`. -/
def replaceTupleB (c : Ctx) (op : Op) (k : Nat) : Row :=
  format_html_line_tuple
    (if k < op.j2 - op.j1 && (j1origB c op).isSome
     then some ((j1origB c op).getD 0 + k + 1) else none)
    (c.render (if k < op.j2 - op.j1 then (origBlockB c op).getD k "" else ""))
    "diff-add"

/-- The body of the opcode loop of `generate_ultimate_diff_views`
(app.py lines 425–599) for a single opcode.  The Python loop appends one row
per view per inner iteration; here each branch computes the appended row
lists directly.  `Option.getD 0` stands in for index-map lookups the source
uses unguarded (they always succeed for opcodes over nonempty ranges). -/
def processOpBody (c : Ctx) (st : DState) (op : Op) : DState :=
  let opts := c.opts
  let num_lines_proc := op.i2 - op.i1
  if opts.hide_unchanged && op.tag == OTag.equal then
    if opts.num_context * 2 < num_lines_proc then
      let cs := opts.num_context
      let rowsA :=
        (List.range cs).map (blockRowA c op "diff-context")
        ++ separator_tuple
          :: (List.range cs).map (fun k =>
              blockRowA c op "diff-context" (num_lines_proc - cs + k))
      let rowsB :=
        (List.range cs).map (blockRowB c op "diff-context")
        ++ separator_tuple
          :: (List.range cs).map (fun k =>
              blockRowB c op "diff-context" (num_lines_proc - cs + k))
      let rowsD :=
        (List.range cs).map (fun _ => placeholder_row)
          ++ separator_tuple :: (List.range cs).map (fun _ => placeholder_row)
      { st with
        viewA := st.viewA ++ rowsA
        viewB := st.viewB ++ rowsB
        viewDiff := st.viewDiff ++ rowsD
        minimap := st.minimap ++ (List.replicate cs "equal"
          ++ List.replicate cs "equal") }
    else
      { st with
        viewA := st.viewA
          ++ (List.range num_lines_proc).map (blockRowA c op "diff-equal")
        viewB := st.viewB
          ++ (List.range num_lines_proc).map (blockRowB c op "diff-equal")
        viewDiff := st.viewDiff
          ++ (List.range num_lines_proc).map (fun _ => placeholder_row)
        minimap := st.minimap ++ List.replicate num_lines_proc "equal"
        stats := { st.stats with
          unchanged := st.stats.unchanged + num_lines_proc } }
  else
    let bf := backfillEmit c st op
    let st := { st with
      viewA := st.viewA ++ bf.1
      viewB := st.viewB ++ bf.2.1
      viewDiff := st.viewDiff ++ bf.2.2.1
      minimap := st.minimap ++ bf.2.2.2 }
    match op.tag with
    | OTag.equal =>
      let n := op.i2 - op.i1
      { st with
        viewA := st.viewA ++ (List.range n).map (blockRowA c op "diff-equal")
        viewB := st.viewB ++ (List.range n).map (blockRowB c op "diff-equal")
        viewDiff := st.viewDiff ++ (List.range n).map (fun _ => placeholder_row)
        minimap := st.minimap ++ List.replicate n "equal"
        stats := { st.stats with unchanged := st.stats.unchanged + n } }
    | OTag.delete =>
      let n := op.i2 - op.i1
      let rows := (List.range n).map (blockRowA c op "diff-sub")
      { st with
        viewA := st.viewA ++ rows
        viewB := st.viewB ++ (List.range n).map (fun _ => placeholder_row)
        viewDiff := st.viewDiff ++ rows
        minimap := st.minimap ++ List.replicate n "sub"
        stats := { st.stats with deleted := st.stats.deleted + n } }
    | OTag.insert =>
      let n := op.j2 - op.j1
      let rows := (List.range n).map (blockRowB c op "diff-add")
      { st with
        viewA := st.viewA ++ (List.range n).map (fun _ => placeholder_row)
        viewB := st.viewB ++ rows
        viewDiff := st.viewDiff ++ rows
        minimap := st.minimap ++ List.replicate n "add"
        stats := { st.stats with added := st.stats.added + n } }
    | OTag.replace =>
      let na := op.i2 - op.i1
      let nb := op.j2 - op.j1
      let m := max na nb
      { st with
        viewA := st.viewA ++ (List.range m).map (fun k =>
          if k < na then replaceTupleA c op k else placeholder_row)
        viewB := st.viewB ++ (List.range m).map (fun k =>
          if k < nb then replaceTupleB c op k else placeholder_row)
        viewDiff := st.viewDiff ++ (List.range m).foldr (fun k acc =>
          (if k < na then [replaceTupleA c op k] else [])
            ++ (if k < nb then (if na ≤ k then [replaceTupleB c op k] else [])
                else (if na ≤ k then [placeholder_row] else []))
            ++ acc) []
        minimap := st.minimap ++ List.replicate m "mod"
        stats := { st.stats with modified := st.stats.modified + m } }

/-- The full opcode-loop body (app.py lines 425–599): the branch dispatch
followed by the unconditional `last_proc_a_idx = i2_proc;
last_proc_b_idx = j2_proc` update (app.py lines 598–599). -/
def processOp (c : Ctx) (st : DState) (op : Op) : DState :=
  let st1 := processOpBody c st op
  { st1 with lastA := op.i2, lastB := op.j2 }

/-- The synthetic "identical" row text (app.py line 604). -/
def identText : String :=
  "<i style='color: var(--line-num-color);'>Files are identical with current options.</i>"

/-- app.py lines 601–604: drop placeholder rows from the diff view (keeping
separators), and if nothing but separators remains, substitute the single
synthetic "files are identical" row. -/
def postPassDiff (view_diff_lines : List Row) : List Row :=
  let final := view_diff_lines.filter (fun r =>
    !pyIn "placeholder" r.2.2 || pyIn "sep" r.2.2)
  if final == [] || final.all (fun r => pyIn "sep" r.2.2) then
    [format_html_line_tuple none identText "diff-equal"]
  else final

/-- The value returned by `generate_ultimate_diff_views`: the Python
function returns a 4-tuple on the empty-after-preprocessing early exit
(app.py lines 401–402) and a 5-tuple `(view_a, final_diff, view_b, stats,
minimap)` otherwise (app.py line 606). -/
inductive GenReturn where
  | early (x1 x2 x3 : List Row) (stats : Stats)
  | full (view_a view_diff view_b : List Row) (stats : Stats)
      (minimap : List String)
deriving DecidableEq, Repr

/-- app.py lines 386–606, `generate_ultimate_diff_views`, with
`highlight_syntax(·, lexer)` abstracted as `render`. -/
def generate_ultimate_diff_views (lines_a_orig lines_b_orig : List String)
    (options : Options) (render : String → String) : GenReturn :=
  let pa := preprocess_lines lines_a_orig options
  let pb := preprocess_lines lines_b_orig options
  let processed_a := pa.1
  let processed_b := pb.1
  if processed_a == [] && processed_b == [] then
    GenReturn.early [] [] [] ⟨0, 0, 0, 0⟩
  else
    let opcodes := getOpcodes processed_a processed_b noJunk
    let c : Ctx := ⟨lines_a_orig, lines_b_orig, pa.2, pb.2, options, render⟩
    let st := opcodes.foldl (processOp c) initState
    GenReturn.full st.viewA (postPassDiff st.viewDiff) st.viewB st.stats
      st.minimap

/-- The caller-side unpacking `view_a, view_diff, view_b, stats, _ =
st.session_state.diff_results` (app.py lines 849 and 891): succeeds only on
a 5-tuple; the 4-tuple early return makes it raise `ValueError`. -/
def unpack5 (r : GenReturn) :
    Option (List Row × List Row × List Row × Stats × List String) :=
  match r with
  | GenReturn.early _ _ _ _ => none
  | GenReturn.full a d b s m => some (a, d, b, s, m)

/-- The stats component of either return shape. -/
def statsOf : GenReturn → Stats
  | GenReturn.early _ _ _ s => s
  | GenReturn.full _ _ _ s _ => s

/-- The second tuple component (the diff view on the 5-tuple path). -/
def diffViewOf : GenReturn → List Row
  | GenReturn.early _ x2 _ _ => x2
  | GenReturn.full _ d _ _ _ => d

/-- The first tuple component (view A on the 5-tuple path). -/
def viewAOf : GenReturn → List Row
  | GenReturn.early x1 _ _ _ => x1
  | GenReturn.full a _ _ _ _ => a

/-! ## The patch exporter (`generate_patch_file` / `difflib.unified_diff`) -/

/-- difflib's `bpopular` purge under `autojunk=True` (`__chain_b`): with at
least 200 `b`-elements, elements occurring more than `len(b) // 100 + 1`
times become junk. -/
def popularJunk (b : List String) (autojunk : Bool) : String → Bool :=
  fun s =>
    autojunk && 200 ≤ b.length
      && b.length / 100 + 1 < b.countP (fun t => t == s)

/-- `difflib._format_range_unified`. -/
def formatRangeUnified (start stop : Nat) : String :=
  let beginning := start + 1
  let length := stop - start
  if length == 1 then toString beginning
  else
    let beginning := if length == 0 then beginning - 1 else beginning
    toString beginning ++ "," ++ toString length

/-- The grouping loop of `SequenceMatcher.get_grouped_opcodes`: split at
large `equal` opcodes, keeping `nctx` lines of context on each side; a final
group consisting of a single `equal` opcode is not yielded. -/
def groupSplit (nctx : Nat) : List Op → List Op → List (List Op)
  | group, [] =>
    if group != []
        && !(group.length == 1
          && (group.headD ⟨OTag.equal, 0, 0, 0, 0⟩).tag == OTag.equal) then
      [group]
    else []
  | group, op :: rest =>
    if op.tag == OTag.equal && nctx * 2 < op.i2 - op.i1 then
      (group ++ [⟨OTag.equal, op.i1, min op.i2 (op.i1 + nctx),
                  op.j1, min op.j2 (op.j1 + nctx)⟩])
        :: groupSplit nctx
            [⟨OTag.equal, max op.i1 (op.i2 - nctx), op.i2,
              max op.j1 (op.j2 - nctx), op.j2⟩] rest
    else groupSplit nctx (group ++ [op]) rest

/-- `SequenceMatcher.get_grouped_opcodes(n)` (with the matcher's default
`autojunk=True`, as `difflib.unified_diff` constructs it). -/
def getGroupedOpcodes (a b : List String) (nctx : Nat) : List (List Op) :=
  let codes := getOpcodes a b (popularJunk b true)
  let codes := if codes == [] then [⟨OTag.equal, 0, 1, 0, 1⟩] else codes
  let codes : List Op :=
    match codes with
    | Op.mk OTag.equal i1 i2 j1 j2 :: rest =>
      ⟨OTag.equal, max i1 (i2 - nctx), i2, max j1 (j2 - nctx), j2⟩ :: rest
    | _ => codes
  let codes : List Op :=
    match codes.getLast? with
    | some (Op.mk OTag.equal i1 i2 j1 j2) =>
      codes.dropLast
        ++ [⟨OTag.equal, i1, min i2 (i1 + nctx), j1, min j2 (j1 + nctx)⟩]
    | _ => codes
  groupSplit nctx [] codes

/-- `difflib.unified_diff(a, b, fromfile, tofile, n=3, lineterm)` as a list
of emitted lines (the `---`/`+++` headers are produced once, before the
first group, so no groups means no output at all). -/
def unified_diff (a b : List String) (fromfile tofile : String)
    (nctx : Nat) (lineterm : String) : List String :=
  let groups := getGroupedOpcodes a b nctx
  match groups with
  | [] => []
  | _ =>
    ("--- " ++ fromfile ++ lineterm) :: ("+++ " ++ tofile ++ lineterm)
      :: groups.foldr (fun group acc =>
        let first := group.headD ⟨OTag.equal, 0, 0, 0, 0⟩
        let last := group.getLastD ⟨OTag.equal, 0, 0, 0, 0⟩
        ("@@ -" ++ formatRangeUnified first.i1 last.i2
            ++ " +" ++ formatRangeUnified first.j1 last.j2
            ++ " @@" ++ lineterm)
          :: group.foldr (fun op acc2 =>
            (match op.tag with
             | OTag.equal =>
               ((a.drop op.i1).take (op.i2 - op.i1)).map (fun l => " " ++ l)
             | OTag.replace =>
               ((a.drop op.i1).take (op.i2 - op.i1)).map (fun l => "-" ++ l)
                 ++ ((b.drop op.j1).take (op.j2 - op.j1)).map (fun l => "+" ++ l)
             | OTag.delete =>
               ((a.drop op.i1).take (op.i2 - op.i1)).map (fun l => "-" ++ l)
             | OTag.insert =>
               ((b.drop op.j1).take (op.j2 - op.j1)).map (fun l => "+" ++ l))
              ++ acc2) acc) []

/-- app.py lines 689–701, `generate_patch_file`: append newlines, run
`difflib.unified_diff`, join. -/
def generate_patch_file (lines_a lines_b : List String)
    (file_a_name file_b_name : String) : String :=
  let lines_a_nl := lines_a.map (fun l => l ++ "\n")
  let lines_b_nl := lines_b.map (fun l => l ++ "\n")
  String.join (unified_diff lines_a_nl lines_b_nl file_a_name file_b_name 3 "\n")

/-! ## Derived measures used by the stat-consistency statements -/

/-- The A-side lines consumed by `replace` opcodes (the quantity the spec's
stat-consistency equation adds to `unchanged + deleted`). -/
def replaceATotal : List Op → Nat
  | [] => 0
  | op :: rest =>
    (if op.tag = OTag.replace then op.i2 - op.i1 else 0) + replaceATotal rest

/-- The A-side lines of `equal` opcodes taken by the context-collapse branch
(`hide_unchanged` with run length `> 2 × num_context`, app.py line 442),
which contribute nothing to any stat. -/
def collapsedATotal (o : Options) : List Op → Nat
  | [] => 0
  | op :: rest =>
    (if op.tag = OTag.equal ∧ o.hide_unchanged = true
        ∧ o.num_context * 2 < op.i2 - op.i1 then op.i2 - op.i1 else 0)
      + collapsedATotal o rest

/-- The per-iteration trace of the opcode loop: the loop state at the start
of each iteration, paired with that iteration's opcode. -/
def foldTrace (c : Ctx) : DState → List Op → List (DState × Op)
  | _, [] => []
  | st, op :: rest => (st, op) :: foldTrace c (processOp c st op) rest

/-- The two fixture patterns used to exercise the malformed-regex path: one
entry that fails to compile and one valid entry matching lines that start
with `TIMESTAMP`. -/
def mixedPats : List Pat :=
  [⟨false, fun _ => false⟩, ⟨true, fun s => pyStartsWith s "TIMESTAMP"⟩]

/-! ## Invariant predicates for the matcher and the opcode stream -/

/-- A matching block triple lies inside `[alo, ahi) × [blo, bhi)` (difflib's
documented guarantee `alo <= i <= i+k <= ahi` and `blo <= j <= j+k <= bhi`
for `find_longest_match`). -/
def InRange (alo ahi blo bhi : Nat) (t : Nat × Nat × Nat) : Prop :=
  alo ≤ t.1 ∧ t.1 + t.2.2 ≤ ahi ∧ blo ≤ t.2.1 ∧ t.2.1 + t.2.2 ≤ bhi

/-- Matching blocks listed left to right: every block starts at or after
the running lower bound, blocks advance monotonically, and everything stays
within the upper bounds. -/
inductive Chain : Nat → Nat → List (Nat × Nat × Nat) → Nat → Nat → Prop where
  | nil {loA loB hiA hiB : Nat} :
      loA ≤ hiA → loB ≤ hiB → Chain loA loB [] hiA hiB
  | cons {loA loB hiA hiB i j k : Nat} {rest : List (Nat × Nat × Nat)} :
      loA ≤ i → loB ≤ j → Chain (i + k) (j + k) rest hiA hiB →
      Chain loA loB ((i, j, k) :: rest) hiA hiB

/-- Contiguity of an opcode stream (`get_opcodes` tiles both inputs): each
opcode starts exactly where the previous one ended, advances monotonically,
pure inserts consume nothing on the A side, and the stream ends exactly at
`(iEnd, jEnd)`. -/
inductive OpsOK : Nat → Nat → List Op → Nat → Nat → Prop where
  | nil (i j : Nat) : OpsOK i j [] i j
  | cons {i j iEnd jEnd : Nat} {op : Op} {rest : List Op} :
      op.i1 = i → op.j1 = j → op.i1 ≤ op.i2 → op.j1 ≤ op.j2 →
      (op.tag = OTag.insert → op.i2 = op.i1) →
      OpsOK op.i2 op.j2 rest iEnd jEnd →
      OpsOK i j (op :: rest) iEnd jEnd

/-- Where a block list ends on the A side, starting from `i`. -/
def blocksEndA : Nat → List (Nat × Nat × Nat) → Nat
  | i, [] => i
  | _, (ai, _, k) :: rest => blocksEndA (ai + k) rest

/-- Where a block list ends on the B side, starting from `j`. -/
def blocksEndB : Nat → List (Nat × Nat × Nat) → Nat
  | j, [] => j
  | _, (_, bj, k) :: rest => blocksEndB (bj + k) rest

/-! ## Helper lemmas: fold invariants and matcher ranges -/

theorem foldl_inv {α β : Type _} (P : β → Prop) (f : β → α → β) :
    ∀ (l : List α) (b : β), P b →
      (∀ b' a, a ∈ l → P b' → P (f b' a)) → P (l.foldl f b)
  | [], _, hb, _ => hb
  | a :: l, b, hb, hf =>
    foldl_inv P f l (f b a) (hf b a (List.mem_cons_self a l)
      hb) (fun b' a' ha' => hf b' a' (List.mem_cons_of_mem a ha'))

theorem matchLenAux_le_a (a b : List String) (junk : String → Bool)
    (ahi bhi : Nat) :
    ∀ fuel i j, matchLenAux a b junk ahi bhi fuel i j ≤ ahi - i := by
  intro fuel
  induction fuel with
  | zero => intro i j; simp [matchLenAux]
  | succ n ih =>
    intro i j
    simp only [matchLenAux]
    split
    · rename_i h
      simp only [Bool.and_eq_true, decide_eq_true_eq] at h
      have := ih (i + 1) (j + 1)
      omega
    · exact Nat.zero_le _

theorem matchLenAux_le_b (a b : List String) (junk : String → Bool)
    (ahi bhi : Nat) :
    ∀ fuel i j, matchLenAux a b junk ahi bhi fuel i j ≤ bhi - j := by
  intro fuel
  induction fuel with
  | zero => intro i j; simp [matchLenAux]
  | succ n ih =>
    intro i j
    simp only [matchLenAux]
    split
    · rename_i h
      simp only [Bool.and_eq_true, decide_eq_true_eq] at h
      have := ih (i + 1) (j + 1)
      omega
    · exact Nat.zero_le _

theorem matchLen_le_a (a b : List String) (junk : String → Bool)
    (ahi bhi i j : Nat) : matchLen a b junk ahi bhi i j ≤ ahi - i :=
  matchLenAux_le_a a b junk ahi bhi _ i j

theorem matchLen_le_b (a b : List String) (junk : String → Bool)
    (ahi bhi i j : Nat) : matchLen a b junk ahi bhi i j ≤ bhi - j :=
  matchLenAux_le_b a b junk ahi bhi _ i j

theorem bruteBest_range (a b : List String) (junk : String → Bool)
    (alo ahi blo bhi : Nat) (ha : alo ≤ ahi) (hb : blo ≤ bhi) :
    InRange alo ahi blo bhi (bruteBest a b junk alo ahi blo bhi) := by
  unfold bruteBest
  apply foldl_inv (InRange alo ahi blo bhi)
  · simp only [InRange]
    omega
  · intro best i hi hbest
    apply foldl_inv (InRange alo ahi blo bhi)
    · exact hbest
    · intro best' j hj hbest'
      simp only
      split
      · rename_i hk
        rw [List.mem_range'_1] at hi hj
        have h1 := matchLen_le_a a b junk ahi bhi i j
        have h2 := matchLen_le_b a b junk ahi bhi i j
        simp only [InRange]
        omega
      · exact hbest'

theorem extBack_range (a b : List String) (junk : String → Bool)
    (w : Bool) (alo blo ahi bhi : Nat) :
    ∀ fuel t, InRange alo ahi blo bhi t →
      InRange alo ahi blo bhi (extBack a b junk w alo blo fuel t) := by
  intro fuel
  induction fuel with
  | zero => intro t ht; exact ht
  | succ n ih =>
    intro t ht
    obtain ⟨i, j, k⟩ := t
    simp only [extBack]
    split
    · rename_i h
      simp only [Bool.and_eq_true, decide_eq_true_eq] at h
      apply ih
      simp only [InRange] at ht ⊢
      omega
    · exact ht

theorem extFwd_range (a b : List String) (junk : String → Bool)
    (w : Bool) (ahi bhi alo blo : Nat) :
    ∀ fuel t, InRange alo ahi blo bhi t →
      InRange alo ahi blo bhi (extFwd a b junk w ahi bhi fuel t) := by
  intro fuel
  induction fuel with
  | zero => intro t ht; exact ht
  | succ n ih =>
    intro t ht
    obtain ⟨i, j, k⟩ := t
    simp only [extFwd]
    split
    · rename_i h
      simp only [Bool.and_eq_true, decide_eq_true_eq] at h
      apply ih
      simp only [InRange] at ht ⊢
      omega
    · exact ht

theorem findLongestMatch_range (a b : List String) (junk : String → Bool)
    (alo ahi blo bhi : Nat) (ha : alo ≤ ahi) (hb : blo ≤ bhi) :
    InRange alo ahi blo bhi (findLongestMatch a b junk alo ahi blo bhi) := by
  unfold findLongestMatch
  apply extFwd_range
  apply extBack_range
  apply extFwd_range
  apply extBack_range
  exact bruteBest_range a b junk alo ahi blo bhi ha hb

theorem Chain.le {loA loB hiA hiB : Nat} {l : List (Nat × Nat × Nat)}
    (h : Chain loA loB l hiA hiB) : loA ≤ hiA ∧ loB ≤ hiB := by
  induction h with
  | nil h1 h2 => exact ⟨h1, h2⟩
  | cons h1 h2 _ ih => omega

theorem Chain.weaken {loA loB loA' loB' hiA hiB : Nat}
    {l : List (Nat × Nat × Nat)} (h : Chain loA loB l hiA hiB)
    (hA : loA' ≤ loA) (hB : loB' ≤ loB) : Chain loA' loB' l hiA hiB := by
  cases h with
  | nil h1 h2 => exact Chain.nil (Nat.le_trans hA h1) (Nat.le_trans hB h2)
  | cons h1 h2 h3 =>
    exact Chain.cons (Nat.le_trans hA h1) (Nat.le_trans hB h2) h3

theorem chain_append {loA loB hiA hiB : Nat} (mA mB : Nat)
    {xs ys : List (Nat × Nat × Nat)} (hxs : Chain loA loB xs mA mB)
    (hys : Chain mA mB ys hiA hiB) : Chain loA loB (xs ++ ys) hiA hiB := by
  induction hxs with
  | nil h1 h2 => exact hys.weaken h1 h2
  | cons h1 h2 _ ih => exact Chain.cons h1 h2 (ih hys)

theorem mBlocks_chain (a b : List String) (junk : String → Bool) :
    ∀ fuel alo ahi blo bhi, alo ≤ ahi → blo ≤ bhi →
      Chain alo blo (mBlocks a b junk fuel alo ahi blo bhi) ahi bhi := by
  intro fuel
  induction fuel with
  | zero => intro alo ahi blo bhi ha hb; exact Chain.nil ha hb
  | succ n ih =>
    intro alo ahi blo bhi ha hb
    have hr := findLongestMatch_range a b junk alo ahi blo bhi ha hb
    simp only [mBlocks]
    rcases hflm : findLongestMatch a b junk alo ahi blo bhi with ⟨i, j, k⟩
    rw [hflm] at hr
    simp only [InRange] at hr
    obtain ⟨h1, h2, h3, h4⟩ := hr
    dsimp only
    split
    · exact Chain.nil ha hb
    · apply chain_append i j
      · split
        · exact ih alo i blo j h1 h3
        · exact Chain.nil h1 h3
      · refine Chain.cons (Nat.le_refl _) (Nat.le_refl _) ?_
        split
        · exact ih (i + k) ahi (j + k) bhi h2 h4
        · exact Chain.nil h2 h4

theorem mergeBlocksAux_chain {hiA hiB : Nat} :
    ∀ (rest : List (Nat × Nat × Nat)) (i1 j1 k1 loA loB : Nat),
      loA ≤ i1 → loB ≤ j1 →
      Chain (i1 + k1) (j1 + k1) rest hiA hiB →
      Chain loA loB (mergeBlocksAux (i1, j1, k1) rest) hiA hiB := by
  intro rest
  induction rest with
  | nil =>
    intro i1 j1 k1 loA loB h1 h2 hch
    cases hch with
    | nil hA hB =>
      simp only [mergeBlocksAux]
      split
      · exact Chain.nil (by omega) (by omega)
      · exact Chain.cons h1 h2 (Chain.nil hA hB)
  | cons hd tl ih =>
    intro i1 j1 k1 loA loB h1 h2 hch
    obtain ⟨i2, j2, k2⟩ := hd
    cases hch with
    | cons hA hB hrest =>
      simp only [mergeBlocksAux]
      split
      · rename_i hadj
        simp only [Bool.and_eq_true, beq_iff_eq] at hadj
        apply ih i1 j1 (k1 + k2) loA loB h1 h2
        rw [show i1 + (k1 + k2) = i2 + k2 by omega,
          show j1 + (k1 + k2) = j2 + k2 by omega]
        exact hrest
      · split
        · rename_i hk1
          simp only [beq_iff_eq] at hk1
          simp only [List.nil_append]
          exact ih i2 j2 k2 loA loB (by omega) (by omega) hrest
        · simp only [List.cons_append, List.nil_append]
          exact Chain.cons h1 h2 (ih i2 j2 k2 (i1 + k1) (j1 + k1) hA hB hrest)

theorem getMatchingBlocks_chain (a b : List String) (junk : String → Bool) :
    Chain 0 0 (getMatchingBlocks a b junk) a.length b.length := by
  unfold getMatchingBlocks
  apply chain_append a.length b.length
  · exact mergeBlocksAux_chain _ 0 0 0 0 0 (Nat.le_refl _) (Nat.le_refl _)
      (mBlocks_chain a b junk _ 0 a.length 0 b.length (Nat.zero_le _)
        (Nat.zero_le _))
  · exact Chain.cons (Nat.le_refl _) (Nat.le_refl _)
      (Chain.nil (by omega) (by omega))

theorem blocksEndA_append (ys : List (Nat × Nat × Nat)) :
    ∀ (xs : List (Nat × Nat × Nat)) (i : Nat),
      blocksEndA i (xs ++ ys) = blocksEndA (blocksEndA i xs) ys := by
  intro xs
  induction xs with
  | nil => intro i; rfl
  | cons hd tl ih =>
    intro i
    obtain ⟨ai, bj, k⟩ := hd
    simp only [List.cons_append, blocksEndA]
    exact ih _

theorem blocksEndB_append (ys : List (Nat × Nat × Nat)) :
    ∀ (xs : List (Nat × Nat × Nat)) (j : Nat),
      blocksEndB j (xs ++ ys) = blocksEndB (blocksEndB j xs) ys := by
  intro xs
  induction xs with
  | nil => intro j; rfl
  | cons hd tl ih =>
    intro j
    obtain ⟨ai, bj, k⟩ := hd
    simp only [List.cons_append, blocksEndB]
    exact ih _

theorem opsOK_start_le {i j e e' : Nat} {ops : List Op}
    (h : OpsOK i j ops e e') : i ≤ e ∧ j ≤ e' := by
  induction h with
  | nil => exact ⟨Nat.le_refl _, Nat.le_refl _⟩
  | cons h1 h2 h3 h4 h5 _ ih => omega

theorem opcodesFromBlocks_ok :
    ∀ (blocks : List (Nat × Nat × Nat)) (i j hiA hiB : Nat),
      Chain i j blocks hiA hiB →
      OpsOK i j (opcodesFromBlocks i j blocks) (blocksEndA i blocks)
        (blocksEndB j blocks) := by
  intro blocks
  induction blocks with
  | nil => intro i j hiA hiB _; exact OpsOK.nil i j
  | cons hd tl ih =>
    intro i j hiA hiB hch
    obtain ⟨ai, bj, size⟩ := hd
    cases hch with
    | cons hA hB hrest =>
      have htl := ih (ai + size) (bj + size) hiA hiB hrest
      simp only [opcodesFromBlocks, blocksEndA, blocksEndB]
      by_cases hia : i < ai <;> by_cases hjb : j < bj
        <;> by_cases hsz : size = 0
        <;> simp only [hia, hjb, hsz, decide_True, decide_False,
          Bool.and_true, Bool.and_false, Bool.true_and, Bool.false_and,
          beq_self_eq_true, if_true, if_false, beq_iff_eq,
          List.cons_append, List.nil_append, List.singleton_append]
      · -- i < ai, j < bj, size = 0 : replace gap only
        subst hsz
        refine OpsOK.cons rfl rfl (Nat.le_of_lt hia) (Nat.le_of_lt hjb)
          (fun h => nomatch h) ?_
        simpa using htl
      · -- i < ai, j < bj, size ≠ 0 : replace gap then equal
        refine OpsOK.cons rfl rfl (Nat.le_of_lt hia) (Nat.le_of_lt hjb)
          (fun h => nomatch h) ?_
        exact OpsOK.cons rfl rfl (Nat.le_add_right ai size)
          (Nat.le_add_right bj size) (fun h => nomatch h) htl
      · -- i < ai, ¬ j < bj, size = 0 : delete gap only
        subst hsz
        have hj : bj = j := by omega
        subst hj
        refine OpsOK.cons rfl rfl (Nat.le_of_lt hia) (Nat.le_refl _)
          (fun h => nomatch h) ?_
        simpa using htl
      · -- i < ai, ¬ j < bj, size ≠ 0 : delete gap then equal
        have hj : bj = j := by omega
        subst hj
        refine OpsOK.cons rfl rfl (Nat.le_of_lt hia) (Nat.le_refl _)
          (fun h => nomatch h) ?_
        exact OpsOK.cons rfl rfl (Nat.le_add_right ai size)
          (Nat.le_add_right _ size) (fun h => nomatch h) htl
      · -- ¬ i < ai, j < bj, size = 0 : insert gap only
        subst hsz
        have hi : ai = i := by omega
        subst hi
        refine OpsOK.cons rfl rfl (Nat.le_refl ai) (Nat.le_of_lt hjb)
          (fun _ => rfl) ?_
        simpa using htl
      · -- ¬ i < ai, j < bj, size ≠ 0 : insert gap then equal
        have hi : ai = i := by omega
        subst hi
        refine OpsOK.cons rfl rfl (Nat.le_refl ai) (Nat.le_of_lt hjb)
          (fun _ => rfl) ?_
        exact OpsOK.cons rfl rfl (Nat.le_add_right ai size)
          (Nat.le_add_right bj size) (fun h => nomatch h) htl
      · -- no gap, size = 0
        subst hsz
        have hi : ai = i := by omega
        have hj : bj = j := by omega
        subst hi; subst hj
        simpa using htl
      · -- no gap, size ≠ 0 : equal only
        have hi : ai = i := by omega
        have hj : bj = j := by omega
        subst hi; subst hj
        exact OpsOK.cons rfl rfl (Nat.le_add_right ai size)
          (Nat.le_add_right bj size) (fun h => nomatch h) htl

theorem opsOK_getOpcodes (a b : List String) (junk : String → Bool) :
    OpsOK 0 0 (getOpcodes a b junk) a.length b.length := by
  have h := opcodesFromBlocks_ok (getMatchingBlocks a b junk) 0 0 _ _
    (getMatchingBlocks_chain a b junk)
  have hA : blocksEndA 0 (getMatchingBlocks a b junk) = a.length := by
    unfold getMatchingBlocks
    rw [blocksEndA_append]
    simp [blocksEndA]
  have hB : blocksEndB 0 (getMatchingBlocks a b junk) = b.length := by
    unfold getMatchingBlocks
    rw [blocksEndB_append]
    simp [blocksEndB]
  rw [hA, hB] at h
  exact h

/-! ## Per-opcode behaviour of the loop body -/

theorem processOp_lastA (c : Ctx) (st : DState) (op : Op) :
    (processOp c st op).lastA = op.i2 := rfl

theorem processOp_lastB (c : Ctx) (st : DState) (op : Op) :
    (processOp c st op).lastB = op.j2 := rfl

theorem backfillEmit_of_not_lt (c : Ctx) (st : DState) (op : Op)
    (h : ¬ st.lastA < op.i1) : backfillEmit c st op = ([], [], [], []) := by
  unfold backfillEmit
  simp [h]

theorem processOp_stats (c : Ctx) (st : DState) (op : Op) :
    (processOp c st op).stats =
      match op.tag with
      | OTag.equal =>
        if c.opts.hide_unchanged = true
            ∧ c.opts.num_context * 2 < op.i2 - op.i1 then st.stats
        else { st.stats with
          unchanged := st.stats.unchanged + (op.i2 - op.i1) }
      | OTag.delete =>
        { st.stats with deleted := st.stats.deleted + (op.i2 - op.i1) }
      | OTag.insert =>
        { st.stats with added := st.stats.added + (op.j2 - op.j1) }
      | OTag.replace =>
        { st.stats with modified :=
            st.stats.modified + max (op.i2 - op.i1) (op.j2 - op.j1) } := by
  obtain ⟨tag, i1, i2, j1, j2⟩ := op
  cases tag
  case equal =>
    by_cases hh : c.opts.hide_unchanged = true
      <;> by_cases hc : c.opts.num_context * 2 < i2 - i1
      <;> simp [processOp, processOpBody, hh, hc]
  case delete => simp [processOp, processOpBody]
  case insert => simp [processOp, processOpBody]
  case replace => simp [processOp, processOpBody]

theorem foldl_stats (c : Ctx) :
    ∀ (ops : List Op) (i j e e' : Nat) (st : DState),
      OpsOK i j ops e e' →
      ((ops.foldl (processOp c) st).stats.unchanged
          + (ops.foldl (processOp c) st).stats.deleted
          + replaceATotal ops + collapsedATotal c.opts ops)
        = st.stats.unchanged + st.stats.deleted + (e - i) := by
  intro ops
  induction ops with
  | nil =>
    intro i j e e' st h
    cases h
    simp [replaceATotal, collapsedATotal]
  | cons op rest ih =>
    intro i j e e' st h
    cases h with
    | cons h1 h2 h3 h4 h5 hrest =>
      have hle := (opsOK_start_le hrest).1
      have hstep := processOp_stats c st op
      have hrec := ih op.i2 op.j2 e e' (processOp c st op) hrest
      simp only [List.foldl_cons] at hrec ⊢
      simp only [replaceATotal, collapsedATotal]
      cases htag : op.tag
      case equal =>
        rw [htag] at hstep
        dsimp only at hstep
        by_cases hcol : c.opts.hide_unchanged = true
            ∧ c.opts.num_context * 2 < op.i2 - op.i1
        · rw [if_pos hcol] at hstep
          rw [hstep] at hrec
          have hrpl : ¬ (OTag.equal = OTag.replace) := fun h => nomatch h
          have hcol' : OTag.equal = OTag.equal
              ∧ c.opts.hide_unchanged = true
              ∧ c.opts.num_context * 2 < op.i2 - op.i1 :=
            ⟨rfl, hcol.1, hcol.2⟩
          rw [if_neg hrpl, if_pos hcol']
          omega
        · rw [if_neg hcol] at hstep
          rw [hstep] at hrec
          dsimp only at hrec
          have hrpl : ¬ (OTag.equal = OTag.replace) := fun h => nomatch h
          have hcol' : ¬ (OTag.equal = OTag.equal
              ∧ c.opts.hide_unchanged = true
              ∧ c.opts.num_context * 2 < op.i2 - op.i1) := by
            intro hx
            exact hcol ⟨hx.2.1, hx.2.2⟩
          rw [if_neg hrpl, if_neg hcol']
          omega
      case delete =>
        rw [htag] at hstep
        dsimp only at hstep
        rw [hstep] at hrec
        dsimp only at hrec
        have hrpl : ¬ (OTag.delete = OTag.replace) := fun h => nomatch h
        have hcol' : ¬ (OTag.delete = OTag.equal
            ∧ c.opts.hide_unchanged = true
            ∧ c.opts.num_context * 2 < op.i2 - op.i1) :=
          fun hx => nomatch hx.1
        rw [if_neg hrpl, if_neg hcol']
        omega
      case insert =>
        rw [htag] at hstep
        dsimp only at hstep
        rw [hstep] at hrec
        dsimp only at hrec
        have hi0 : op.i2 = op.i1 := h5 htag
        have hrpl : ¬ (OTag.insert = OTag.replace) := fun h => nomatch h
        have hcol' : ¬ (OTag.insert = OTag.equal
            ∧ c.opts.hide_unchanged = true
            ∧ c.opts.num_context * 2 < op.i2 - op.i1) :=
          fun hx => nomatch hx.1
        rw [if_neg hrpl, if_neg hcol']
        omega
      case replace =>
        rw [htag] at hstep
        dsimp only at hstep
        rw [hstep] at hrec
        dsimp only at hrec
        have hrpl : OTag.replace = OTag.replace := rfl
        have hcol' : ¬ (OTag.replace = OTag.equal
            ∧ c.opts.hide_unchanged = true
            ∧ c.opts.num_context * 2 < op.i2 - op.i1) :=
          fun hx => nomatch hx.1
        rw [if_pos hrpl, if_neg hcol']
        omega

theorem foldTrace_i1_eq (c : Ctx) :
    ∀ (ops : List Op) (i j e e' : Nat) (st : DState),
      OpsOK i j ops e e' → st.lastA = i →
      ∀ p ∈ foldTrace c st ops, p.2.i1 = p.1.lastA := by
  intro ops
  induction ops with
  | nil => intro i j e e' st _ _ p hp; cases hp
  | cons op rest ih =>
    intro i j e e' st hok hlast p hp
    cases hok with
    | cons h1 h2 h3 h4 h5 hrest =>
      rcases List.mem_cons.mp hp with hp | hp
      · subst hp
        simpa [hlast] using h1
      · exact ih op.i2 op.j2 e e' (processOp c st op) hrest
          (processOp_lastA c st op) p hp

theorem preprocessAux_default :
    ∀ (L : List String) (i : Nat),
      preprocessAux default_options [] i L
        = (L.map pyStrip, List.range' i L.length) := by
  intro L
  induction L with
  | nil => intro i; rfl
  | cons hd tl ih =>
    intro i
    simp only [preprocessAux, ih (i + 1)]
    simp [default_options, List.range'_succ]

theorem matchLenAux_self (x : List String) :
    ∀ fuel i, x.length - i ≤ fuel →
      matchLenAux x x noJunk x.length x.length fuel i i = x.length - i := by
  intro fuel
  induction fuel with
  | zero =>
    intro i h
    simp only [matchLenAux]
    omega
  | succ n ih =>
    intro i h
    simp only [matchLenAux]
    by_cases hi : i < x.length
    · rw [if_pos (by simp [hi, noJunk])]
      rw [ih (i + 1) (by omega)]
      omega
    · rw [if_neg (by simp [hi])]
      omega

theorem matchLen_self (x : List String) (i : Nat) :
    matchLen x x noJunk x.length x.length i i = x.length - i :=
  matchLenAux_self x (x.length - i) i (Nat.le_refl _)

theorem bruteBest_self (x : List String) (hx : x.length ≠ 0) :
    bruteBest x x noJunk 0 x.length 0 x.length = (0, 0, x.length) := by
  have hle : ∀ i j, matchLen x x noJunk x.length x.length i j ≤ x.length :=
    fun i j => Nat.le_trans (matchLen_le_a x x noJunk x.length x.length i j)
      (Nat.sub_le _ _)
  have hkeep : ∀ (l : List Nat) (i : Nat) (t : Nat × Nat × Nat),
      t = (0, 0, x.length) →
      (l.foldl (fun best j =>
        if best.2.2 < matchLen x x noJunk x.length x.length i j
          then (i, j, matchLen x x noJunk x.length x.length i j) else best) t)
      = (0, 0, x.length) := by
    intro l i t ht
    apply foldl_inv (fun u => u = (0, 0, x.length))
    · exact ht
    · intro u j hj hu
      subst hu
      rw [if_neg (Nat.not_lt.mpr (hle i j))]
  have hrange : List.range' 0 (x.length - 0)
      = 0 :: List.range' 1 (x.length - 1) := by
    rw [Nat.sub_zero]
    rcases hlen : x.length with _ | m
    · omega
    · simp [List.range'_succ]
  unfold bruteBest
  rw [hrange]
  simp only [List.foldl_cons]
  apply foldl_inv (fun t => t = (0, 0, x.length))
  · apply hkeep
    rw [matchLen_self x 0, Nat.sub_zero,
      if_pos (Nat.pos_of_ne_zero hx)]
  · intro t i hi ht
    subst ht
    apply hkeep
    rw [if_neg (Nat.not_lt.mpr (hle i 0))]

theorem bruteBest_first (a b : List String) (junk : String → Bool)
    (ahi bhi k0 : Nat) (hk0 : matchLen a b junk ahi bhi 0 0 = k0)
    (ha : ahi ≠ 0) (hb : bhi ≠ 0) (h0 : 0 < k0)
    (hmax : ∀ i j, matchLen a b junk ahi bhi i j ≤ k0) :
    bruteBest a b junk 0 ahi 0 bhi = (0, 0, k0) := by
  have hkeep : ∀ (l : List Nat) (i : Nat) (t : Nat × Nat × Nat),
      t = (0, 0, k0) →
      (l.foldl (fun best j =>
        if best.2.2 < matchLen a b junk ahi bhi i j
          then (i, j, matchLen a b junk ahi bhi i j) else best) t)
      = (0, 0, k0) := by
    intro l i t ht
    apply foldl_inv (fun u => u = (0, 0, k0))
    · exact ht
    · intro u j hj hu
      subst hu
      rw [if_neg (Nat.not_lt.mpr (hmax i j))]
  have hrange : List.range' 0 (ahi - 0) = 0 :: List.range' 1 (ahi - 1) := by
    rw [Nat.sub_zero]
    rcases hlen : ahi with _ | m
    · omega
    · simp [List.range'_succ]
  have hbrange : List.range' 0 (bhi - 0) = 0 :: List.range' 1 (bhi - 1) := by
    rw [Nat.sub_zero]
    rcases hlen : bhi with _ | m
    · omega
    · simp [List.range'_succ]
  unfold bruteBest
  rw [hrange, hbrange]
  simp only [List.foldl_cons]
  apply foldl_inv (fun t => t = (0, 0, k0))
  · apply hkeep
    rw [hk0, if_pos h0]
  · intro t i hi ht
    subst ht
    apply hkeep
    rw [if_neg (Nat.not_lt.mpr (hmax i 0))]

theorem extFwd_of_ne (a b : List String) (junk : String → Bool) (w : Bool)
    (ahi bhi fuel i j k : Nat)
    (h : (a.getD (i + k) "" == b.getD (j + k) "") = false) :
    extFwd a b junk w ahi bhi fuel (i, j, k) = (i, j, k) := by
  cases fuel with
  | zero => rfl
  | succ n =>
    simp only [extFwd]
    split
    next hcond =>
      rw [h] at hcond
      simp at hcond
    next => rfl

theorem extBack_alo (a b : List String) (junk : String → Bool) (w : Bool)
    (alo blo : Nat) :
    ∀ fuel j k, extBack a b junk w alo blo fuel (alo, j, k) = (alo, j, k) := by
  intro fuel j k
  cases fuel with
  | zero => rfl
  | succ n => simp [extBack]

theorem extFwd_top (a b : List String) (junk : String → Bool) (w : Bool)
    (ahi bhi : Nat) (fuel i j k : Nat) (h : ¬ i + k < ahi) :
    extFwd a b junk w ahi bhi fuel (i, j, k) = (i, j, k) := by
  cases fuel with
  | zero => rfl
  | succ n => simp [extFwd, h]

theorem findLongestMatch_self (x : List String) (hx : x.length ≠ 0) :
    findLongestMatch x x noJunk 0 x.length 0 x.length = (0, 0, x.length) := by
  simp only [findLongestMatch]
  rw [bruteBest_self x hx, extBack_alo,
    extFwd_top x x noJunk false x.length x.length x.length 0 0 x.length
      (by omega),
    extBack_alo,
    extFwd_top x x noJunk true x.length x.length x.length 0 0 x.length
      (by omega)]

theorem findLongestMatch_first (a b : List String) (junk : String → Bool)
    (ahi bhi k0 : Nat) (hk0 : matchLen a b junk ahi bhi 0 0 = k0)
    (ha : ahi ≠ 0) (hb : bhi ≠ 0) (h0 : 0 < k0)
    (hmax : ∀ i j, matchLen a b junk ahi bhi i j ≤ k0)
    (hne : (a.getD k0 "" == b.getD k0 "") = false) :
    findLongestMatch a b junk 0 ahi 0 bhi = (0, 0, k0) := by
  have hne0 : (a.getD (0 + k0) "" == b.getD (0 + k0) "") = false := by
    rw [Nat.zero_add]
    exact hne
  simp only [findLongestMatch]
  rw [bruteBest_first a b junk ahi bhi k0 hk0 ha hb h0 hmax, extBack_alo,
    extFwd_of_ne a b junk false ahi bhi ahi 0 0 k0 hne0, extBack_alo,
    extFwd_of_ne a b junk true ahi bhi ahi 0 0 k0 hne0]

theorem getOpcodes_self (x : List String) (hx : x.length ≠ 0) :
    getOpcodes x x noJunk = [⟨OTag.equal, 0, x.length, 0, x.length⟩] := by
  simp only [getOpcodes, getMatchingBlocks]
  have hm : mBlocks x x noJunk (x.length + x.length + 1) 0 x.length 0 x.length
      = [(0, 0, x.length)] := by
    simp only [mBlocks]
    rw [findLongestMatch_self x hx]
    simp [hx]
  rw [hm]
  simp [mergeBlocksAux, hx, opcodesFromBlocks]

theorem filter_placeholder_nil (n : Nat) :
    ((List.range n).map (fun _ => placeholder_row)).filter (fun r =>
      !pyIn "placeholder" r.2.2 || pyIn "sep" r.2.2) = [] := by
  rw [List.filter_eq_nil]
  intro r hr
  rcases List.mem_map.mp hr with ⟨k, _, hk⟩
  rw [← hk]
  decide

theorem popularJunk_small (b : List String) (h : b.length < 200) :
    popularJunk b true = noJunk := by
  funext s
  unfold popularJunk noJunk
  simp [Nat.not_le.mpr h]

theorem getGroupedOpcodes_self (x : List String) (hx : x.length ≠ 0)
    (hsmall : x.length < 200) : getGroupedOpcodes x x 3 = [] := by
  unfold getGroupedOpcodes
  rw [popularJunk_small x hsmall, getOpcodes_self x hx]
  have harith : ¬ (3 * 2 <
      min x.length (max 0 (x.length - 3) + 3) - max 0 (x.length - 3)) := by
    omega
  simp [groupSplit, harith]
  omega

/-- One unfolding step of the `get_matching_blocks` recursion. -/
theorem mBlocks_succ (a b : List String) (junk : String → Bool)
    (fuel alo ahi blo bhi : Nat) :
    mBlocks a b junk (fuel + 1) alo ahi blo bhi
      = (if (findLongestMatch a b junk alo ahi blo bhi).2.2 == 0 then []
         else
          (if alo < (findLongestMatch a b junk alo ahi blo bhi).1
              && blo < (findLongestMatch a b junk alo ahi blo bhi).2.1 then
            mBlocks a b junk fuel alo
              (findLongestMatch a b junk alo ahi blo bhi).1 blo
              (findLongestMatch a b junk alo ahi blo bhi).2.1
           else [])
            ++ ((findLongestMatch a b junk alo ahi blo bhi).1,
                (findLongestMatch a b junk alo ahi blo bhi).2.1,
                (findLongestMatch a b junk alo ahi blo bhi).2.2)
              :: (if (findLongestMatch a b junk alo ahi blo bhi).1
                      + (findLongestMatch a b junk alo ahi blo bhi).2.2 < ahi
                    && (findLongestMatch a b junk alo ahi blo bhi).2.1
                      + (findLongestMatch a b junk alo ahi blo bhi).2.2 < bhi
                  then
                    mBlocks a b junk fuel
                      ((findLongestMatch a b junk alo ahi blo bhi).1
                        + (findLongestMatch a b junk alo ahi blo bhi).2.2) ahi
                      ((findLongestMatch a b junk alo ahi blo bhi).2.1
                        + (findLongestMatch a b junk alo ahi blo bhi).2.2) bhi
                  else [])) := rfl

/-- With `hide_unchanged` off, an `equal` opcode appends the full equal run
to every view, a placeholder per line to the diff view, counts the run into
`unchanged`, and advances the `lastA`/`lastB` cursors. -/
theorem processOp_equal_nohide (c : Ctx) (st : DState) (op : Op)
    (htag : op.tag = OTag.equal) (hh : c.opts.hide_unchanged = false) :
    processOp c st op = { st with
      viewA := st.viewA
        ++ (List.range (op.i2 - op.i1)).map (blockRowA c op "diff-equal"),
      viewB := st.viewB
        ++ (List.range (op.i2 - op.i1)).map (blockRowB c op "diff-equal"),
      viewDiff := st.viewDiff
        ++ (List.range (op.i2 - op.i1)).map (fun _ => placeholder_row),
      minimap := st.minimap ++ List.replicate (op.i2 - op.i1) "equal",
      stats := { st.stats with
        unchanged := st.stats.unchanged + (op.i2 - op.i1) },
      lastA := op.i2, lastB := op.j2 } := by
  obtain ⟨tag, i1, i2, j1, j2⟩ := op
  cases htag
  simp [processOp, processOpBody, backfillEmit, hh]

/-! ## Claim theorems -/
set_option maxRecDepth 16000
/-- C1 (code_bug evidence).  An original line excluded from the comparison
sequence must appear in no view, but on `lines_a = ["x", "# c", "y"]`,
`lines_b = ["x", "y"]` with `ignore_comments` the engine emits the excluded
comment line: view A consists of the rows `(1, "x")` and `(2, "# c")` — the
excluded line's content and original line number — because block
re-hydration slices the original sequence across the exclusion gap
(app.py lines 427–436 with line 476), while the diff view simultaneously
claims the files are identical. -/
theorem C1_excluded_comment_line_emitted :
    viewAOf (generate_ultimate_diff_views ["x", "# c", "y"] ["x", "y"]
        { default_options with ignore_comments := true } id)
      = [(some 1, "x", "diff-equal"), (some 2, "# c", "diff-equal")]
    ∧ diffViewOf (generate_ultimate_diff_views ["x", "# c", "y"] ["x", "y"]
        { default_options with ignore_comments := true } id)
      = [format_html_line_tuple none identText "diff-equal"] := by
  exact ⟨by decide, by decide⟩
/-- C5 (code_bug evidence).  On degenerate input (both sequences empty, or
every line excluded by filters) `generate_ultimate_diff_views` returns the
4-tuple of app.py line 402 — with no minimap component — so the caller's
five-name unpacking (app.py lines 849/891) fails: materialization does not
produce a complete five-part result. -/
theorem C5_degenerate_returns_4tuple :
    generate_ultimate_diff_views [] [] default_options id
      = GenReturn.early [] [] [] ⟨0, 0, 0, 0⟩
    ∧ unpack5 (generate_ultimate_diff_views [] [] default_options id) = none
    ∧ generate_ultimate_diff_views ["# a"] ["# b"]
        { default_options with ignore_comments := true } id
      = GenReturn.early [] [] [] ⟨0, 0, 0, 0⟩
    ∧ unpack5 (generate_ultimate_diff_views ["# a"] ["# b"]
        { default_options with ignore_comments := true } id) = none := by
  exact ⟨by decide, rfl, by decide, rfl⟩
/-- C6 (code_bug evidence).  With one malformed and one valid ignore
pattern, the single `try` around the whole compilation comprehension
(app.py lines 295–298) discards every pattern: the line `"TIMESTAMP 1"`,
which the valid pattern matches, is kept in the comparison sequence (first
conjunct), a warning is surfaced (second conjunct), whereas the valid
pattern alone would have excluded the line (third conjunct). -/
theorem C6_malformed_pattern_disables_all :
    preprocess_lines ["TIMESTAMP 1", "keep"]
        { default_options with ignore_regex := mixedPats }
      = (["TIMESTAMP 1", "keep"], [0, 1])
    ∧ (compilePatterns mixedPats).2 = true
    ∧ preprocess_lines ["TIMESTAMP 1", "keep"]
        { default_options with
            ignore_regex := [⟨true, fun s => pyStartsWith s "TIMESTAMP"⟩] }
      = (["keep"], [1]) := by
  refine ⟨by decide, rfl, by decide⟩
/-- C3 (counterexample).  The claimed equation `unchanged + deleted +
(A-lines of replace segments) = len(normalized_a)` fails as soon as an equal
run is collapsed: comparing seven distinct lines against themselves with
`hide_unchanged` and `num_context = 1` leaves every stat at 0 while the
normalized A sequence has seven lines (the collapse branch, app.py lines
442–471, counts nothing into `unchanged`). -/
theorem C3_counterexample :
    ¬ ((statsOf (generate_ultimate_diff_views
            ["l1", "l2", "l3", "l4", "l5", "l6", "l7"]
            ["l1", "l2", "l3", "l4", "l5", "l6", "l7"]
            { default_options with hide_unchanged := true, num_context := 1 }
            id)).unchanged
        + (statsOf (generate_ultimate_diff_views
            ["l1", "l2", "l3", "l4", "l5", "l6", "l7"]
            ["l1", "l2", "l3", "l4", "l5", "l6", "l7"]
            { default_options with hide_unchanged := true, num_context := 1 }
            id)).deleted
        + replaceATotal (getOpcodes
            (preprocess_lines ["l1", "l2", "l3", "l4", "l5", "l6", "l7"]
              { default_options with hide_unchanged := true, num_context := 1 }).1
            (preprocess_lines ["l1", "l2", "l3", "l4", "l5", "l6", "l7"]
              { default_options with hide_unchanged := true, num_context := 1 }).1
            noJunk)
      = (preprocess_lines ["l1", "l2", "l3", "l4", "l5", "l6", "l7"]
          { default_options with hide_unchanged := true, num_context := 1 }).1.length) := by
  decide
/-- C8 (counterexample).  Comparing the empty sequence against itself with
default options takes the early-return path, whose diff view is empty
rather than the single "files are identical" sentinel row the claim
promises for every sequence. -/
theorem C8_counterexample :
    diffViewOf (generate_ultimate_diff_views [] [] default_options id)
      ≠ [format_html_line_tuple none identText "diff-equal"] := by
  decide
/-- C7 (counterexample).  The synthetic diff-view row does not distinguish
byte-for-byte identical inputs from inputs merely equivalent after
normalization: `["a "]` vs `["a"]` (trim-equivalent, not identical) and
`["a"]` vs `["a"]` (identical) produce the very same single sentinel row,
even though the raw inputs differ. -/
theorem C7_counterexample :
    diffViewOf (generate_ultimate_diff_views ["a "] ["a"] default_options id)
      = diffViewOf (generate_ultimate_diff_views ["a"] ["a"] default_options id)
    ∧ (["a "] : List String) ≠ ["a"] := by
  exact ⟨by decide, by decide⟩
/-- C9 (counterexample).  For identical inputs `generate_patch_file`
returns the empty string: `difflib.unified_diff` yields no groups, so no
"no differences" marker of any kind is produced. -/
theorem C9_counterexample :
    generate_patch_file ["a"] ["a"] "fileA" "fileB" = "" := by
  decide
/-- C3 (amended).  The stat-consistency equation holds once the collapsed
equal runs are accounted for: for every input pair and options,
`stats.unchanged + stats.deleted + (A-side lines of replace segments) +
(A-side lines of collapsed equal runs) = len(normalized_a)` — equal runs
taken by the collapse branch (`hide_unchanged` with length
`> 2 × num_context`) contribute nothing to `unchanged` (neither their
interior nor their emitted context lines). -/
theorem C3_stat_equation_amended (lines_a lines_b : List String)
    (options : Options) (render : String → String) :
    (statsOf (generate_ultimate_diff_views lines_a lines_b options
        render)).unchanged
      + (statsOf (generate_ultimate_diff_views lines_a lines_b options
          render)).deleted
      + replaceATotal (getOpcodes (preprocess_lines lines_a options).1
          (preprocess_lines lines_b options).1 noJunk)
      + collapsedATotal options (getOpcodes (preprocess_lines lines_a options).1
          (preprocess_lines lines_b options).1 noJunk)
      = (preprocess_lines lines_a options).1.length := by
  simp only [generate_ultimate_diff_views]
  split
  · rename_i h
    simp only [Bool.and_eq_true, beq_iff_eq] at h
    rw [h.1, h.2]
    have hops : getOpcodes ([] : List String) [] noJunk = [] := rfl
    rw [hops]
    simp [statsOf, replaceATotal, collapsedATotal]
  · have hok := opsOK_getOpcodes (preprocess_lines lines_a options).1
      (preprocess_lines lines_b options).1 noJunk
    have h2 := foldl_stats
      (Ctx.mk lines_a lines_b (preprocess_lines lines_a options).2
        (preprocess_lines lines_b options).2 options render)
      (getOpcodes (preprocess_lines lines_a options).1
        (preprocess_lines lines_b options).1 noJunk)
      0 0 _ _ initState hok
    simp only [statsOf, initState] at h2 ⊢
    omega
/-- C10.  At the start of every iteration of the opcode loop the segment's
`i1_proc` equals the persisted `last_proc_a_idx` (SequenceMatcher opcodes
tile the inputs contiguously), so the guard `i1_proc > last_proc_a_idx` of
the separate trailing-context backfill branch (app.py line 489) never holds
and the branch emits no row into any view or the minimap. -/
theorem C10_backfill_never_fires (lines_a lines_b : List String)
    (options : Options) (render : String → String) :
    ∀ p ∈ foldTrace
        ⟨lines_a, lines_b, (preprocess_lines lines_a options).2,
          (preprocess_lines lines_b options).2, options, render⟩
        initState
        (getOpcodes (preprocess_lines lines_a options).1
          (preprocess_lines lines_b options).1 noJunk),
      p.2.i1 = p.1.lastA ∧ ¬ p.1.lastA < p.2.i1
        ∧ backfillEmit
            ⟨lines_a, lines_b, (preprocess_lines lines_a options).2,
              (preprocess_lines lines_b options).2, options, render⟩
            p.1 p.2
          = ([], [], [], []) := by
  intro p hp
  have h1 := foldTrace_i1_eq _ _ 0 0 _ _ initState
    (opsOK_getOpcodes _ _ noJunk) rfl p hp
  exact ⟨h1, by omega, backfillEmit_of_not_lt _ _ _ (by omega)⟩
/-- Witness for C10 at a concrete comparison (`["x"]` vs `["y"]`, default
options): the single replace opcode starts at the persisted index and the
backfill branch emits nothing. -/
theorem C10_backfill_never_fires_witness :
    (⟨OTag.replace, 0, 1, 0, 1⟩ : Op).i1 = initState.lastA
      ∧ ¬ initState.lastA < (⟨OTag.replace, 0, 1, 0, 1⟩ : Op).i1
      ∧ backfillEmit
          ⟨["x"], ["y"], (preprocess_lines ["x"] default_options).2,
            (preprocess_lines ["y"] default_options).2, default_options, id⟩
          initState ⟨OTag.replace, 0, 1, 0, 1⟩
        = ([], [], [], []) :=
  C10_backfill_never_fires ["x"] ["y"] default_options id
    (initState, ⟨OTag.replace, 0, 1, 0, 1⟩) (by decide)

/-- The diff-view contribution of the replace branch collapses to one row
per offset: the A-side row when `k < na`, otherwise the B-side row (the
placeholder arm is unreachable because `k < max na nb`). -/
theorem replace_diff_foldr (c : Ctx) (i1 i2 j1 j2 : Nat) :
    ∀ (l : List Nat), (∀ k ∈ l, k < max (i2 - i1) (j2 - j1)) →
      (l.foldr (fun k acc =>
        (if k < i2 - i1 then
            [replaceTupleA c ⟨OTag.replace, i1, i2, j1, j2⟩ k] else [])
          ++ ((if k < j2 - j1 then
                (if i2 ≤ k + i1 then
                  [replaceTupleB c ⟨OTag.replace, i1, i2, j1, j2⟩ k] else [])
              else (if i2 ≤ k + i1 then [placeholder_row] else []))
            ++ acc)) [])
      = l.map (fun k => if k < i2 - i1 then
          replaceTupleA c ⟨OTag.replace, i1, i2, j1, j2⟩ k
          else replaceTupleB c ⟨OTag.replace, i1, i2, j1, j2⟩ k) := by
  intro l
  induction l with
  | nil => intro _; rfl
  | cons hd tl ih =>
    intro hmem
    have hhd := hmem hd (List.mem_cons_self hd tl)
    simp only [List.foldr_cons, List.map_cons,
      ih (fun k hk => hmem k (List.mem_cons_of_mem hd hk))]
    by_cases h1 : hd < i2 - i1
    · have hno : ¬ (i2 ≤ hd + i1) := by omega
      simp [h1, hno]
    · have h2 : hd < j2 - j1 := by omega
      have hyes : i2 ≤ hd + i1 := by omega
      simp [h1, h2, hyes]
/-- C2.  For a replace opcode with A-run length `na = i2 - i1` and B-run
length `nb = j2 - j1` (no pending backfill, which never fires in the
pipeline, see C10):  view A receives `max na nb` aligned rows — the
`replaced_old` row (class `diff-sub`) for `k < na`, a placeholder otherwise
— view B symmetrically with class `diff-add`; the diff view receives the
A-side row whenever `k < na` and the B-side row exactly when `k ≥ na`; the
minimap receives `max na nb` `mod` marks, and the `modified` stat grows by
`max na nb`, all other stats unchanged. -/
theorem C2_replace_emission (c : Ctx) (st : DState) (op : Op)
    (htag : op.tag = OTag.replace) (hguard : ¬ st.lastA < op.i1) :
    (processOp c st op).viewA
        = st.viewA ++ (List.range (max (op.i2 - op.i1) (op.j2 - op.j1))).map
            (fun k => if k < op.i2 - op.i1 then replaceTupleA c op k
              else placeholder_row)
      ∧ (processOp c st op).viewB
        = st.viewB ++ (List.range (max (op.i2 - op.i1) (op.j2 - op.j1))).map
            (fun k => if k < op.j2 - op.j1 then replaceTupleB c op k
              else placeholder_row)
      ∧ (processOp c st op).viewDiff
        = st.viewDiff
          ++ (List.range (max (op.i2 - op.i1) (op.j2 - op.j1))).map
            (fun k => if k < op.i2 - op.i1 then replaceTupleA c op k
              else replaceTupleB c op k)
      ∧ (processOp c st op).minimap
        = st.minimap
          ++ List.replicate (max (op.i2 - op.i1) (op.j2 - op.j1)) "mod"
      ∧ (processOp c st op).stats
        = { st.stats with modified :=
            st.stats.modified + max (op.i2 - op.i1) (op.j2 - op.j1) } := by
  have hbf := backfillEmit_of_not_lt c st op hguard
  obtain ⟨tag, i1, i2, j1, j2⟩ := op
  cases htag
  refine ⟨?_, ?_, ?_, ?_, ?_⟩
  · simp [processOp, processOpBody, hbf]
  · simp [processOp, processOpBody, hbf]
  · simp [processOp, processOpBody, hbf]
    exact replace_diff_foldr c i1 i2 j1 j2 _ (fun k hk => List.mem_range.mp hk)
  · simp [processOp, processOpBody, hbf]
  · simp [processOp, processOpBody, hbf]
/-- Fixture comparison context for the C2 witness: one original line per
side, identity maps, default options, identity renderer. -/
def c2Ctx : Ctx := ⟨["old"], ["new"], [0], [0], default_options, id⟩
/-- Fixture replace opcode for the C2 witness. -/
def c2Op : Op := ⟨OTag.replace, 0, 1, 0, 1⟩
/-- Witness for C2 at a concrete replace segment (`na = nb = 1`). -/
theorem C2_replace_emission_witness :
    (processOp c2Ctx initState c2Op).viewA
        = initState.viewA
          ++ (List.range (max (c2Op.i2 - c2Op.i1) (c2Op.j2 - c2Op.j1))).map
            (fun k => if k < c2Op.i2 - c2Op.i1 then replaceTupleA c2Ctx c2Op k
              else placeholder_row)
      ∧ (processOp c2Ctx initState c2Op).viewB
        = initState.viewB
          ++ (List.range (max (c2Op.i2 - c2Op.i1) (c2Op.j2 - c2Op.j1))).map
            (fun k => if k < c2Op.j2 - c2Op.j1 then replaceTupleB c2Ctx c2Op k
              else placeholder_row)
      ∧ (processOp c2Ctx initState c2Op).viewDiff
        = initState.viewDiff
          ++ (List.range (max (c2Op.i2 - c2Op.i1) (c2Op.j2 - c2Op.j1))).map
            (fun k => if k < c2Op.i2 - c2Op.i1 then replaceTupleA c2Ctx c2Op k
              else replaceTupleB c2Ctx c2Op k)
      ∧ (processOp c2Ctx initState c2Op).minimap
        = initState.minimap
          ++ List.replicate (max (c2Op.i2 - c2Op.i1) (c2Op.j2 - c2Op.j1)) "mod"
      ∧ (processOp c2Ctx initState c2Op).stats
        = { initState.stats with modified :=
            (initState.stats.modified
              + max (c2Op.i2 - c2Op.i1) (c2Op.j2 - c2Op.j1)) } :=
  C2_replace_emission c2Ctx initState c2Op rfl (by decide)
/-- The 20-identical-lines-then-one-difference fixture of the spec's
concrete scenario 4 (A side). -/
def c4LinesA : List String := List.replicate 20 "same" ++ ["alpha"]
/-- B side of the scenario-4 fixture. -/
def c4LinesB : List String := List.replicate 20 "same" ++ ["beta"]
/-- Options of the scenario-4 fixture: `collapse_unchanged` on,
`context_size = 3`. -/
def c4Opts : Options :=
  { default_options with hide_unchanged := true, num_context := 3 }
/-- Fixture context for the C4 witness: the scenario-4 comparison, whose
index maps are the identity on 21 lines. -/
def c4Ctx : Ctx := ⟨c4LinesA, c4LinesB, List.range 21, List.range 21, c4Opts, id⟩
/-- Fixture equal opcode (the 20-line run) for the C4 witness. -/
def c4Op : Op := ⟨OTag.equal, 0, 20, 0, 20⟩
/-- C4.  First conjunct (the collapse rule): whenever `hide_unchanged` is
set and an equal run is longer than `2 × num_context`, the branch emits
exactly the first `num_context` block lines as `context` rows, one
separator (no line number: `separator_tuple.1 = none`), and the last
`num_context` block lines as `context` rows — nothing else, so the interior
lines are never emitted; the diff view gets matching placeholders around the
separator, the minimap gets `equal` marks only for the `2 × num_context`
emitted context lines (none for the separator), and no stat changes.
Second conjunct: the concrete scenario — 20 identical lines then one
differing line with `context_size = 3` shows context lines 1–3, a
separator, context lines 18–20 immediately before the differing row 21, and
the interior 14 lines appear nowhere. -/
theorem C4_collapse_context_emission :
    (∀ (c : Ctx) (st : DState) (op : Op),
      op.tag = OTag.equal → c.opts.hide_unchanged = true →
      c.opts.num_context * 2 < op.i2 - op.i1 →
      (processOp c st op).viewA
          = st.viewA
            ++ ((List.range c.opts.num_context).map
                  (blockRowA c op "diff-context")
              ++ separator_tuple
                :: (List.range c.opts.num_context).map (fun k =>
                    blockRowA c op "diff-context"
                      (op.i2 - op.i1 - c.opts.num_context + k)))
        ∧ (processOp c st op).viewB
          = st.viewB
            ++ ((List.range c.opts.num_context).map
                  (blockRowB c op "diff-context")
              ++ separator_tuple
                :: (List.range c.opts.num_context).map (fun k =>
                    blockRowB c op "diff-context"
                      (op.i2 - op.i1 - c.opts.num_context + k)))
        ∧ (processOp c st op).viewDiff
          = st.viewDiff
            ++ ((List.range c.opts.num_context).map (fun _ => placeholder_row)
              ++ separator_tuple
                :: (List.range c.opts.num_context).map
                  (fun _ => placeholder_row))
        ∧ (processOp c st op).minimap
          = st.minimap ++ (List.replicate c.opts.num_context "equal"
              ++ List.replicate c.opts.num_context "equal")
        ∧ (processOp c st op).stats = st.stats
        ∧ separator_tuple.1 = none)
    ∧ generate_ultimate_diff_views c4LinesA c4LinesB c4Opts id
      = GenReturn.full
          [(some 1, "same", "diff-context"), (some 2, "same", "diff-context"),
           (some 3, "same", "diff-context"), separator_tuple,
           (some 18, "same", "diff-context"), (some 19, "same", "diff-context"),
           (some 20, "same", "diff-context"), (some 21, "alpha", "diff-sub")]
          [separator_tuple, (some 21, "alpha", "diff-sub")]
          [(some 1, "same", "diff-context"), (some 2, "same", "diff-context"),
           (some 3, "same", "diff-context"), separator_tuple,
           (some 18, "same", "diff-context"), (some 19, "same", "diff-context"),
           (some 20, "same", "diff-context"), (some 21, "beta", "diff-add")]
          ⟨0, 0, 1, 0⟩
          ["equal", "equal", "equal", "equal", "equal", "equal", "mod"] := by
  constructor
  · intro c st op htag hh hc
    obtain ⟨tag, i1, i2, j1, j2⟩ := op
    cases htag
    refine ⟨?_, ?_, ?_, ?_, ?_, rfl⟩ <;>
      simp [processOp, processOpBody, hh, hc]
  · have hm00 : matchLen c4LinesA c4LinesB noJunk 21 21 0 0 = 20 := by decide
    have hmax : ∀ i j, matchLen c4LinesA c4LinesB noJunk 21 21 i j ≤ 20 := by
      intro i j
      rcases Nat.eq_zero_or_pos i with hi | hi
      · rcases Nat.eq_zero_or_pos j with hj | hj
        · subst hi; subst hj; rw [hm00]
        · have := matchLen_le_b c4LinesA c4LinesB noJunk 21 21 i j
          omega
      · have := matchLen_le_a c4LinesA c4LinesB noJunk 21 21 i j
        omega
    have hflm := findLongestMatch_first c4LinesA c4LinesB noJunk 21 21 20
      hm00 (by decide) (by decide) (by decide) hmax (by decide)
    have hmb2 : mBlocks c4LinesA c4LinesB noJunk 42 20 21 20 21 = [] := by
      decide
    have hblocks : getMatchingBlocks c4LinesA c4LinesB noJunk
        = [(0, 0, 20), (21, 21, 0)] := by
      simp only [getMatchingBlocks]
      have hla : c4LinesA.length = 21 := by decide
      have hlb : c4LinesB.length = 21 := by decide
      rw [hla, hlb]
      rw [show (21 + 21 + 1 : Nat) = 42 + 1 from rfl]
      rw [mBlocks_succ, hflm]
      simp [hmb2, mergeBlocksAux]
    have hops : getOpcodes c4LinesA c4LinesB noJunk
        = [⟨OTag.equal, 0, 20, 0, 20⟩, ⟨OTag.replace, 20, 21, 20, 21⟩] := by
      unfold getOpcodes
      rw [hblocks]
      decide
    have hpreA : preprocess_lines c4LinesA c4Opts
        = (c4LinesA, List.range' 0 21) := by decide
    have hpreB : preprocess_lines c4LinesB c4Opts
        = (c4LinesB, List.range' 0 21) := by decide
    simp only [generate_ultimate_diff_views, hpreA, hpreB]
    rw [if_neg (by decide)]
    rw [hops]
    decide
/-- Witness for C4's general conjunct at the scenario-4 fixture: processing
the 20-line equal run from the initial state emits exactly
context/separator/context. -/
theorem C4_collapse_context_emission_witness :
    (processOp c4Ctx initState c4Op).viewA
        = initState.viewA
          ++ ((List.range c4Ctx.opts.num_context).map
                (blockRowA c4Ctx c4Op "diff-context")
            ++ separator_tuple
              :: (List.range c4Ctx.opts.num_context).map (fun k =>
                  blockRowA c4Ctx c4Op "diff-context"
                    (c4Op.i2 - c4Op.i1 - c4Ctx.opts.num_context + k)))
      ∧ (processOp c4Ctx initState c4Op).viewB
        = initState.viewB
          ++ ((List.range c4Ctx.opts.num_context).map
                (blockRowB c4Ctx c4Op "diff-context")
            ++ separator_tuple
              :: (List.range c4Ctx.opts.num_context).map (fun k =>
                  blockRowB c4Ctx c4Op "diff-context"
                    (c4Op.i2 - c4Op.i1 - c4Ctx.opts.num_context + k)))
      ∧ (processOp c4Ctx initState c4Op).viewDiff
        = initState.viewDiff
          ++ ((List.range c4Ctx.opts.num_context).map (fun _ => placeholder_row)
            ++ separator_tuple
              :: (List.range c4Ctx.opts.num_context).map
                (fun _ => placeholder_row))
      ∧ (processOp c4Ctx initState c4Op).minimap
        = initState.minimap ++ (List.replicate c4Ctx.opts.num_context "equal"
            ++ List.replicate c4Ctx.opts.num_context "equal")
      ∧ (processOp c4Ctx initState c4Op).stats = initState.stats
      ∧ separator_tuple.1 = none :=
  C4_collapse_context_emission.1 c4Ctx initState c4Op rfl rfl (by decide)
/-- C7 (amended).  Whenever the post-pass filter leaves the diff view with
nothing but separators (in particular when it is empty — `all` holds
vacuously), the diff view is replaced by the single synthetic row with role
`equal` (class `diff-equal`), no line number, and the one fixed text
"Files are identical with current options." — the same text whether the raw
inputs were byte-for-byte identical or merely equivalent after
normalization. -/
theorem C7_sentinel_amended (view_diff : List Row)
    (h : ((view_diff.filter (fun r =>
        !pyIn "placeholder" r.2.2 || pyIn "sep" r.2.2)).all
      (fun r => pyIn "sep" r.2.2)) = true) :
    postPassDiff view_diff
      = [format_html_line_tuple none identText "diff-equal"] := by
  unfold postPassDiff
  simp [h]
/-- Witness for C7 at the empty diff stream: the post-pass substitutes the
sentinel row. -/
theorem C7_sentinel_amended_witness :
    postPassDiff []
      = [format_html_line_tuple none identText "diff-equal"] :=
  C7_sentinel_amended [] (by decide)
/-! ## Self-comparison facts -/
/-- C8 (amended).  For every nonempty sequence `L`, comparing `L` against
itself with default options yields stats `added = deleted = modified = 0`,
`unchanged = len L`, and the diff view collapses to the single "Files are
identical with current options." sentinel row (the empty sequence instead
takes the 4-tuple early return — see the counterexample). -/
theorem C8_self_identity_amended (L : List String) (hL : L ≠ []) :
    statsOf (generate_ultimate_diff_views L L default_options id)
        = ⟨0, 0, 0, L.length⟩
      ∧ diffViewOf (generate_ultimate_diff_views L L default_options id)
        = [format_html_line_tuple none identText "diff-equal"] := by
  have hlen : (L.map pyStrip).length = L.length := by simp
  have hxne : (L.map pyStrip).length ≠ 0 := by
    rw [hlen]
    exact fun h0 => hL (List.length_eq_zero.mp h0)
  have hpre : preprocess_lines L default_options
      = (L.map pyStrip, List.range' 0 L.length) := preprocessAux_default L 0
  have hops := getOpcodes_self (L.map pyStrip) hxne
  simp only [generate_ultimate_diff_views, hpre]
  rw [if_neg (by
    simp only [Bool.and_eq_true, beq_iff_eq, List.map_eq_nil]
    exact fun hx => hL hx.1)]
  rw [hops]
  simp only [List.foldl_cons, List.foldl_nil]
  rw [processOp_equal_nohide
    ⟨L, L, List.range' 0 L.length, List.range' 0 L.length,
      default_options, id⟩
    initState
    ⟨OTag.equal, 0, (L.map pyStrip).length, 0, (L.map pyStrip).length⟩
    rfl rfl]
  constructor
  · simp [statsOf, initState, hlen]
  · simp only [diffViewOf, initState, List.nil_append, postPassDiff,
      filter_placeholder_nil]
    simp
/-- Witness for C8 at `L = ["a"]`. -/
theorem C8_self_identity_amended_witness :
    statsOf (generate_ultimate_diff_views ["a"] ["a"] default_options id)
        = ⟨0, 0, 0, 1⟩
      ∧ diffViewOf (generate_ultimate_diff_views ["a"] ["a"] default_options id)
        = [format_html_line_tuple none identText "diff-equal"] :=
  C8_self_identity_amended ["a"] (by decide)
/-- C9 (amended).  For every pair of identical raw input sequences (shown
for inputs of fewer than 200 lines, where difflib's autojunk heuristic is
inert), the unified-diff export returns the empty string — there is no
"no differences" marker, and no patch content at all. -/
theorem C9_identical_patch_empty (lines : List String)
    (h : lines.length < 200) (file_a_name file_b_name : String) :
    generate_patch_file lines lines file_a_name file_b_name = "" := by
  rcases hl : lines with _ | ⟨hd, tl⟩
  · rfl
  · have hxlen : ((hd :: tl).map (fun l => l ++ "\n")).length
        = tl.length + 1 := by simp
    have hgs := getGroupedOpcodes_self ((hd :: tl).map (fun l => l ++ "\n"))
      (by rw [hxlen]; omega) (by rw [hxlen]; rw [hl] at h; simpa using h)
    simp only [generate_patch_file, unified_diff, hgs]
    rfl
/-- Witness for C9 at a two-line identical input. -/
theorem C9_identical_patch_empty_witness :
    generate_patch_file ["x", "y"] ["x", "y"] "left" "right" = "" :=
  C9_identical_patch_empty ["x", "y"] (by decide) "left" "right"
end StreamDiff
